import Mathlib

/-!
# Instagram auto-poster: the legacy monthly posting workflow

A shallow embedding of `old/test2.js` (namespace `Test2`) and `old/test.js`
(namespace `Test`), both defining the class `InstagramWebAutomation`.

* JavaScript strings are Lean `String`s; the built-ins the program calls
  (`trim`, `isNaN`, `endsWith`, `RegExp.test`, `Array.prototype.sort`,
  `Date.prototype.toISOString`) are modelled in namespace `JS` after ECMA-262.
* The filesystem is an explicit value `FS` passed through a `State`, next to
  the `isLoggedIn` field of the object and a trace of the observable effects.
* The outcomes of the calls that leave the program (network, module loading,
  the random source, the clock) are inputs, gathered in `Env` and `AuthEnv`.
* A function that can throw returns an `Except JSError _` beside the state
  reached when it threw. `console.log` / `console.error` lines are not
  modelled. What a library throws or rejects with is an `Error` object, so
  reading `error.message` in a `catch` block does not throw in turn.
* Namespace `Spec` holds the vocabulary of the specification the theorems are
  stated with, among it `Spec.instantOf`, which reads the instant a marker
  content denotes.
-/

namespace JS

/-- The code points of ECMA-262 `WhiteSpace` and `LineTerminator`: the
characters removed by `String.prototype.trim` and ignored around a numeral by
`ToNumber`. -/
def isStrWhiteSpaceChar (c : Char) : Bool :=
  c.toNat == 0x09 || c.toNat == 0x0A || c.toNat == 0x0B || c.toNat == 0x0C ||
  c.toNat == 0x0D || c.toNat == 0x20 || c.toNat == 0xA0 || c.toNat == 0x1680 ||
  (0x2000 ≤ c.toNat && c.toNat ≤ 0x200A) || c.toNat == 0x2028 ||
  c.toNat == 0x2029 || c.toNat == 0x202F || c.toNat == 0x205F ||
  c.toNat == 0x3000 || c.toNat == 0xFEFF

/-- Drop the white space at the end of a character list. -/
def trimEndChars (l : List Char) : List Char :=
  (l.reverse.dropWhile isStrWhiteSpaceChar).reverse

/-- Drop the white space at both ends of a character list. -/
def trimChars (l : List Char) : List Char :=
  trimEndChars (l.dropWhile isStrWhiteSpaceChar)

/-- The method `String.prototype.trim`. -/
def trim (s : String) : String := ⟨trimChars s.data⟩

/-- The method `String.prototype.endsWith(suffix)`. -/
def endsWith (s suffix : String) : Bool := suffix.data.isSuffixOf s.data

/-- ASCII lower-casing: the only case folding under which a character can
match one of the letters of `/\.(jpg|jpeg|png)$/i` (a non-ASCII character
never canonicalises to an ASCII one in a non-unicode RegExp). -/
def asciiLower (c : Char) : Char :=
  if 65 ≤ c.toNat ∧ c.toNat ≤ 90 then Char.ofNat (c.toNat + 32) else c

/-- The test `/\.(jpg|jpeg|png)$/i.test(file)`. -/
def testImagePattern (file : String) : Bool :=
  ".jpg".data.isSuffixOf (file.data.map asciiLower) ||
  ".jpeg".data.isSuffixOf (file.data.map asciiLower) ||
  ".png".data.isSuffixOf (file.data.map asciiLower)

/-- A decimal digit `0`..`9`. -/
def isDecimalDigit (c : Char) : Bool := 48 ≤ c.toNat && c.toNat ≤ 57

/-- The production `DecimalDigits`: one or more decimal digits. -/
def isDecimalDigits (l : List Char) : Bool := !l.isEmpty && l.all isDecimalDigit

/-- The production `SignedInteger`: digits with an optional sign. -/
def isSignedInteger : List Char → Bool
  | '+' :: ds => isDecimalDigits ds
  | '-' :: ds => isDecimalDigits ds
  | ds => isDecimalDigits ds

/-- Nothing, or the production `ExponentPart`: `e` or `E`, then a signed
integer. -/
def isExponentPartOpt : List Char → Bool
  | [] => true
  | c :: rest => (c == 'e' || c == 'E') && isSignedInteger rest

/-- The production `StrUnsignedDecimalLiteral`: `Infinity`, digits with an
optional fraction and exponent, or a fraction starting with the point. -/
def isStrUnsignedDecimalLiteral (l : List Char) : Bool :=
  l == "Infinity".data ||
  match l.dropWhile isDecimalDigit with
  | '.' :: rest =>
    (!(l.takeWhile isDecimalDigit).isEmpty || !(rest.takeWhile isDecimalDigit).isEmpty) &&
      isExponentPartOpt (rest.dropWhile isDecimalDigit)
  | rest => !(l.takeWhile isDecimalDigit).isEmpty && isExponentPartOpt rest

/-- The production `StrDecimalLiteral`: an unsigned decimal literal with an
optional sign. -/
def isStrDecimalLiteral : List Char → Bool
  | '+' :: l => isStrUnsignedDecimalLiteral l
  | '-' :: l => isStrUnsignedDecimalLiteral l
  | l => isStrUnsignedDecimalLiteral l

/-- A hexadecimal digit. -/
def isHexDigit (c : Char) : Bool :=
  isDecimalDigit c || (97 ≤ c.toNat && c.toNat ≤ 102) || (65 ≤ c.toNat && c.toNat ≤ 70)

/-- The production `NonDecimalIntegerLiteral`: `0b`, `0o` or `0x` (either
case) followed by one or more digits of that base. -/
def isNonDecimalIntegerLiteral : List Char → Bool
  | '0' :: p :: ds =>
    !ds.isEmpty &&
      (((p == 'b' || p == 'B') && ds.all (fun c => c == '0' || c == '1')) ||
       ((p == 'o' || p == 'O') && ds.all (fun c => 48 ≤ c.toNat && c.toNat ≤ 55)) ||
       ((p == 'x' || p == 'X') && ds.all isHexDigit))
  | _ => false

/-- The global function `isNaN` applied to a string: `ToNumber` yields `NaN`
exactly when the string, white space at both ends ignored, is neither empty
nor a `StrNumericLiteral`. -/
def isNaN (s : String) : Bool :=
  !((trimChars s.data).isEmpty || isStrDecimalLiteral (trimChars s.data) ||
    isNonDecimalIntegerLiteral (trimChars s.data))

/-- The UTF-16 code units of a character. -/
def codeUnitsOfChar (c : Char) : List Nat :=
  if c.toNat < 0x10000 then [c.toNat]
  else [0xD800 + (c.toNat - 0x10000) / 0x400, 0xDC00 + (c.toNat - 0x10000) % 0x400]

/-- The UTF-16 code units of a string. -/
def codeUnits (s : String) : List Nat := s.data.flatMap codeUnitsOfChar

/-- Lexicographic `≤` on code-unit sequences. -/
def lexLE : List Nat → List Nat → Bool
  | [], _ => true
  | _ :: _, [] => false
  | a :: as, b :: bs => a < b || (a == b && lexLE as bs)

/-- The order of `Array.prototype.sort()` called without a comparator on
strings: code-unit lexicographic order. -/
def sortCompareLE (a b : String) : Prop := lexLE (codeUnits a) (codeUnits b) = true

instance : DecidableRel sortCompareLE := fun a b =>
  inferInstanceAs (Decidable (lexLE (codeUnits a) (codeUnits b) = true))

/-- The method `Array.prototype.sort()` without comparator on an array of
strings. -/
def sort (l : List String) : List String := l.insertionSort sortCompareLE

/-- The decimal digits of `n`, padded with zeros to `width` places. -/
def padDigits : Nat → Nat → List Char
  | 0, _ => []
  | w + 1, n => padDigits w (n / 10) ++ [Char.ofNat (48 + n % 10)]

/-- The method `Date.prototype.toISOString` of the date `ms` milliseconds
after the epoch: `YYYY-MM-DDTHH:mm:ss.sssZ`, the year written `+YYYYYY` past
9999. -/
def toISOString (ms : Nat) : String :=
  let days := ms / 86400000
  let z := days + 719468
  let doe := z % 146097
  let yoe := (doe - doe / 1460 + doe / 36524 - doe / 146096) / 365
  let doy := doe - (365 * yoe + yoe / 4 - yoe / 100)
  let mp := (5 * doy + 2) / 153
  let d := doy - (153 * mp + 2) / 5 + 1
  let m := if mp < 10 then mp + 3 else mp - 9
  let y := yoe + z / 146097 * 400 + (if m ≤ 2 then 1 else 0)
  let t := ms % 86400000
  ⟨(if y ≤ 9999 then padDigits 4 y else '+' :: padDigits 6 y) ++ '-' :: padDigits 2 m ++
    '-' :: padDigits 2 d ++ 'T' :: padDigits 2 (t / 3600000) ++
    ':' :: padDigits 2 (t / 60000 % 60) ++ ':' :: padDigits 2 (t / 1000 % 60) ++
    '.' :: padDigits 3 (t % 1000) ++ ['Z']⟩

end JS

/-! ## Filesystem, effects and state -/

/-- An entry of a directory listing (`fs.Dirent`): its name and the answer of
`isDirectory()`. -/
structure Dirent where
  name : String
  isDirectory : Bool
deriving DecidableEq

/-- The part of the filesystem the program observes. `readdirSync` and
`readFileSync` answer `none` where the Node call throws. -/
structure FS where
  existsSync : String → Bool
  readdirSync : String → Option (List Dirent)
  readFileSync : String → Option String

/-- The call `path.join(dir, name)` for a normalised `dir` and a plain `name`. -/
def pathJoin (dir name : String) : String := dir ++ "/" ++ name

/-- The name under which `path` is a direct child of the directory `dir`, if
it is one. -/
def childName (dir path : String) : Option String :=
  if path.data.take (dir.data.length + 1) = dir.data ++ ['/'] ∧
      path.data.drop (dir.data.length + 1) ≠ [] ∧
      '/' ∉ path.data.drop (dir.data.length + 1) then
    some ⟨path.data.drop (dir.data.length + 1)⟩
  else none

/-- The call `fs.writeFileSync(path, content)` into an existing directory: the
file exists afterwards with that content and is listed in its directory. -/
def FS.writeFileSync (fs : FS) (path content : String) : FS where
  existsSync p := p == path || fs.existsSync p
  readFileSync p := if p = path then some content else fs.readFileSync p
  readdirSync d :=
    match fs.readdirSync d, childName d path with
    | some entries, some n =>
      if entries.any (fun e => e.name == n) then some entries
      else some (entries ++ [⟨n, false⟩])
    | listing, _ => listing

/-- The call `fs.unlinkSync(path)` on an existing file. -/
def FS.unlinkSync (fs : FS) (path : String) : FS where
  existsSync p := p != path && fs.existsSync p
  readFileSync p := if p = path then none else fs.readFileSync p
  readdirSync d :=
    match fs.readdirSync d, childName d path with
    | some entries, some n => some (entries.filter (fun e => e.name != n))
    | listing, _ => listing

/-- The observable effects of a run, in the order they happen.
`postToInstagram img cap b` records that the call `postToInstagram(img, cap)`
returned `b`; `processMonth` and the three `loginWith...` events record that
the method was entered. -/
inductive Event
  | readdir (path : String)
  | readFile (path : String)
  | unlink (path : String)
  | writeFile (path content : String)
  | loginWithSavedCookies
  | loginWithManualCookies
  | loginWithCredentials
  | getProfile
  | clientLogin
  | createChatCompletion (content : String)
  | uploadPhoto (photo caption : String)
  | postToInstagram (imagePath caption : String) (success : Bool)
  | processMonth (monthFolder : String) (force : Bool)
  | setTimeout (ms : Nat)
deriving DecidableEq

/-- An exception that leaves a method of the class. -/
inductive JSError
  | readdir (path : String)
  | openaiClient
deriving DecidableEq

/-- The fields of the object (`isLoggedIn`), the filesystem, and the effects
so far. -/
structure State where
  fs : FS
  isLoggedIn : Bool
  trace : List Event

/-- Record an effect. -/
def State.log (s : State) (e : Event) : State := { s with trace := s.trace ++ [e] }

/-- What `await openai.createChatCompletion(...)` followed by
`response.data.choices[0].message.content.trim()` can do: the promise rejects,
the response has no such string (a `TypeError` inside the `try`), or there is
a content string. -/
inductive ChatResult
  | rejects
  | malformed
  | content (text : String)

/-- The outcomes of the external calls of one `processMonth` call.
`openaiClient` is false when `require('openai')`, `new Configuration` or
`new OpenAIApi` throws; `uploadPhoto photo caption` is false when the upload
rejects; `random` stands for `Math.random()` (the index chosen among `n`
images is `random % n`, any index below `n`); `now` is the clock, in
milliseconds since the epoch, read by `new Date()`. -/
structure Env where
  openaiClient : Bool
  createChatCompletion : String → ChatResult
  uploadPhoto : String → String → Bool
  random : Nat
  now : Nat

/-- The variables of `process.env` the program reads itself. -/
structure ProcessEnv where
  BASE_DIR : Option String
  INSTAGRAM_SESSION_ID : Option String
  INSTAGRAM_CSRF_TOKEN : Option String

/-- What `await this.client.getProfile()` can do: reject (or the client
cannot be built), resolve to `null`/`undefined`, or resolve to an object with
the given `username` field (`none` when absent). -/
inductive ProfileResult
  | rejects
  | nullish
  | profile (username : Option String)

/-- The outcomes of the external calls of `login`. `manualCookieSetup` is
false when `decodeURIComponent`, the cookie jar or the client constructor
throws; `clientLogin` is false when `client.login()` rejects. -/
structure AuthEnv where
  savedCookies : ProfileResult
  manualCookieSetup : Bool
  manualCookies : ProfileResult
  clientLogin : Bool

/-- The expression `process.env.BASE_DIR || 'content'`. -/
def baseDir (penv : ProcessEnv) : String :=
  match penv.BASE_DIR with
  | some d => if d = "" then "content" else d
  | none => "content"

/-- The cookie file of `old/test2.js`. -/
def cookieFile : String := "./instagram_cookies.json"

/-! ## `old/test2.js` -/

namespace Test2

/-- The method `loginWithManualCookies` (test2.js 14-110). -/
def loginWithManualCookies (penv : ProcessEnv) (auth : AuthEnv) (s : State) : Bool × State :=
  let s0 := s.log .loginWithManualCookies
  if penv.INSTAGRAM_SESSION_ID.getD "" = "" ∨ penv.INSTAGRAM_CSRF_TOKEN.getD "" = "" then
    (false, s0)
  else if !auth.manualCookieSetup then (false, s0)
  else
    match auth.manualCookies with
    | .profile (some username) =>
      if username = "" then (false, s0.log .getProfile)
      else (true, { s0.log .getProfile with isLoggedIn := true })
    | _ => (false, s0.log .getProfile)

/-- The method `loginWithSavedCookies` (test2.js 112-141): a cookie file that
does not validate is deleted. -/
def loginWithSavedCookies (auth : AuthEnv) (s : State) : Bool × State :=
  let s0 := s.log .loginWithSavedCookies
  if !s.fs.existsSync cookieFile then (false, s0)
  else
    match auth.savedCookies with
    | .profile _ => (true, { s0.log .getProfile with isLoggedIn := true })
    | _ =>
      (false, { (s0.log .getProfile).log (.unlink cookieFile) with
                fs := s.fs.unlinkSync cookieFile })

/-- The method `loginWithCredentials` (test2.js 143-159). -/
def loginWithCredentials (auth : AuthEnv) (s : State) : Bool × State :=
  let s0 := (s.log .loginWithCredentials).log .clientLogin
  if auth.clientLogin then (true, { s0 with isLoggedIn := true }) else (false, s0)

/-- The method `login` (test2.js 161-180). -/
def login (penv : ProcessEnv) (auth : AuthEnv) (s : State) : Bool × State :=
  match loginWithSavedCookies auth s with
  | (true, s1) => (true, s1)
  | (false, s1) =>
    match loginWithManualCookies penv auth s1 with
    | (true, s2) => (true, s2)
    | (false, s2) =>
      match loginWithCredentials auth s2 with
      | (true, s3) => (true, s3)
      | (false, s3) => (false, s3)

/-- The method `getMonthFolders` (test2.js 182-191). -/
def getMonthFolders (penv : ProcessEnv) (s : State) : Except JSError (List String) × State :=
  match s.fs.readdirSync (baseDir penv) with
  | none => (.error (.readdir (baseDir penv)), s.log (.readdir (baseDir penv)))
  | some entries =>
    (.ok (JS.sort
      ((entries.filter (fun dirent => dirent.isDirectory && !JS.isNaN dirent.name)).map
        (fun dirent => pathJoin (baseDir penv) dirent.name))),
     s.log (.readdir (baseDir penv)))

/-- The array `txtFiles` of `getContentForMonth`, from the listing of the
folder. -/
def txtFilesIn (monthFolder : String) (entries : List Dirent) : List String :=
  ((entries.map (fun e => e.name)).filter (fun file => JS.endsWith file ".txt")).map
    (fun file => pathJoin monthFolder file)

/-- The array `imageFiles` of `getContentForMonth`, from the listing of the
folder. -/
def imageFilesIn (monthFolder : String) (entries : List Dirent) : List String :=
  ((entries.map (fun e => e.name)).filter (fun file => JS.testImagePattern file)).map
    (fun file => pathJoin monthFolder file)

/-- The method `getContentForMonth` (test2.js 193-204): the pair
`(txtFiles, imageFiles)`, each from its own `readdirSync`. -/
def getContentForMonth (monthFolder : String) (s : State) :
    Except JSError (List String × List String) × State :=
  match s.fs.readdirSync monthFolder with
  | none => (.error (.readdir monthFolder), s.log (.readdir monthFolder))
  | some entries =>
    (.ok (txtFilesIn monthFolder entries, imageFilesIn monthFolder entries),
     (s.log (.readdir monthFolder)).log (.readdir monthFolder))

/-- The `forEach` loop of `readTextFiles`, from the value `fullText` has when
the remaining files are visited. -/
def readTextFilesLoop : List String → String → State → String × State
  | [], fullText, s => (fullText, s)
  | file :: rest, fullText, s =>
    match s.fs.readFileSync file with
    | some content => readTextFilesLoop rest (fullText ++ content ++ "\n\n") (s.log (.readFile file))
    | none => readTextFilesLoop rest fullText (s.log (.readFile file))

/-- The method `readTextFiles` (test2.js 206-217). -/
def readTextFiles (txtFiles : List String) (s : State) : String × State :=
  (JS.trim (readTextFilesLoop txtFiles "" s).1, (readTextFilesLoop txtFiles "" s).2)

/-- The user message built by `enhanceTextWithGPT`. -/
def enhancePrompt (text : String) : String :=
  "Make this text more engaging as an Instagram caption: " ++ text

/-- The method `enhanceTextWithGPT` (test2.js 219-249): the client is loaded
and built before the `try`, the request and the reading of the response are
inside it. -/
def enhanceTextWithGPT (env : Env) (text : String) (s : State) : Except JSError String × State :=
  if !env.openaiClient then (.error .openaiClient, s)
  else
    match env.createChatCompletion (enhancePrompt text) with
    | .content c => (.ok (JS.trim c), s.log (.createChatCompletion (enhancePrompt text)))
    | .malformed => (.ok text, s.log (.createChatCompletion (enhancePrompt text)))
    | .rejects => (.ok text, s.log (.createChatCompletion (enhancePrompt text)))

/-- The caption sent with the photo: `caption + '\n\n#monthlypost #automation'`. -/
def uploadCaption (caption : String) : String := caption ++ "\n\n#monthlypost #automation"

/-- The method `postToInstagram` (test2.js 251-273). -/
def postToInstagram (env : Env) (imagePath caption : String) (s : State) : Bool × State :=
  if !s.isLoggedIn then (false, s.log (.postToInstagram imagePath caption false))
  else
    match s.fs.readFileSync imagePath with
    | none => (false, (s.log (.readFile imagePath)).log (.postToInstagram imagePath caption false))
    | some imageBuffer =>
      if env.uploadPhoto imageBuffer (uploadCaption caption) then
        (true, (((s.log (.readFile imagePath)).log
          (.uploadPhoto imageBuffer (uploadCaption caption))).log
          (.postToInstagram imagePath caption true)))
      else
        (false, (((s.log (.readFile imagePath)).log
          (.uploadPhoto imageBuffer (uploadCaption caption))).log
          (.postToInstagram imagePath caption false)))

/-- The marker of a period: `path.join(monthFolder, '.posted')`. -/
def statusFile (monthFolder : String) : String := pathJoin monthFolder ".posted"

/-- The method `processMonth` (test2.js 275-301). -/
def processMonth (env : Env) (monthFolder : String) (force : Bool) (s : State) :
    Except JSError Unit × State :=
  let s0 := s.log (.processMonth monthFolder force)
  if s0.fs.existsSync (statusFile monthFolder) && !force then (.ok (), s0)
  else
    match getContentForMonth monthFolder s0 with
    | (.error e, s1) => (.error e, s1)
    | (.ok (txtFiles, imageFiles), s1) =>
      if txtFiles.length = 0 ∨ imageFiles.length = 0 then (.ok (), s1)
      else
        match enhanceTextWithGPT env (readTextFiles txtFiles s1).1 (readTextFiles txtFiles s1).2 with
        | (.error e, s3) => (.error e, s3)
        | (.ok caption, s3) =>
          match postToInstagram env (imageFiles.getD (env.random % imageFiles.length) "")
              caption s3 with
          | (true, s4) =>
            (.ok (), { s4.log (.writeFile (statusFile monthFolder) (JS.toISOString env.now)) with
                       fs := s4.fs.writeFileSync (statusFile monthFolder) (JS.toISOString env.now) })
          | (false, s4) => (.ok (), s4)

/-- The `for ... of` loop of `run`: the periods still to visit, the number of
periods visited so far (the index of the next `Env`), the state. -/
def runLoop (envs : Nat → Env) (force : Bool) : List String → Nat → State →
    Except JSError Unit × State
  | [], _, s => (.ok (), s)
  | monthFolder :: rest, i, s =>
    match processMonth (envs i) monthFolder force s with
    | (.error e, s1) => (.error e, s1)
    | (.ok _, s1) => runLoop envs force rest (i + 1) (s1.log (.setTimeout 60000))

/-- The method `run` (test2.js 303-325). `specificMonth` is `none` for
`null`; the empty string is falsy too. The `i`-th call of `processMonth` meets
the external outcomes `envs i`. -/
def run (penv : ProcessEnv) (auth : AuthEnv) (envs : Nat → Env)
    (specificMonth : Option String) (force : Bool) (s : State) : Except JSError Unit × State :=
  match login penv auth s with
  | (false, s1) => (.ok (), s1)
  | (true, s1) =>
    match getMonthFolders penv s1 with
    | (.error e, s2) => (.error e, s2)
    | (.ok monthFolders, s2) =>
      if specificMonth.getD "" ≠ "" then
        if s2.fs.existsSync (pathJoin (baseDir penv) (specificMonth.getD "")) then
          processMonth (envs 0) (pathJoin (baseDir penv) (specificMonth.getD "")) force s2
        else (.ok (), s2)
      else runLoop envs force monthFolders 0 s2

end Test2

/-! ## `old/test.js` -/

namespace Test

/-- The method `login` (test.js 15-26): credentials only. -/
def login (auth : AuthEnv) (s : State) : Bool × State :=
  if auth.clientLogin then (true, { s.log .clientLogin with isLoggedIn := true })
  else (false, { s.log .clientLogin with isLoggedIn := false })

/-- The method `getMonthFolders` (test.js 28-37). -/
def getMonthFolders (penv : ProcessEnv) (s : State) : Except JSError (List String) × State :=
  match s.fs.readdirSync (baseDir penv) with
  | none => (.error (.readdir (baseDir penv)), s.log (.readdir (baseDir penv)))
  | some entries =>
    (.ok (JS.sort
      ((entries.filter (fun dirent => dirent.isDirectory && !JS.isNaN dirent.name)).map
        (fun dirent => pathJoin (baseDir penv) dirent.name))),
     s.log (.readdir (baseDir penv)))

/-- The method `getContentForMonth` (test.js 39-50). -/
def getContentForMonth (monthFolder : String) (s : State) :
    Except JSError (List String × List String) × State :=
  match s.fs.readdirSync monthFolder with
  | none => (.error (.readdir monthFolder), s.log (.readdir monthFolder))
  | some entries =>
    (.ok
      (((entries.map (fun e => e.name)).filter (fun file => JS.endsWith file ".txt")).map
          (fun file => pathJoin monthFolder file),
       ((entries.map (fun e => e.name)).filter (fun file => JS.testImagePattern file)).map
          (fun file => pathJoin monthFolder file)),
     (s.log (.readdir monthFolder)).log (.readdir monthFolder))

/-- The `forEach` loop of `readTextFiles`. -/
def readTextFilesLoop : List String → String → State → String × State
  | [], fullText, s => (fullText, s)
  | file :: rest, fullText, s =>
    match s.fs.readFileSync file with
    | some content => readTextFilesLoop rest (fullText ++ content ++ "\n\n") (s.log (.readFile file))
    | none => readTextFilesLoop rest fullText (s.log (.readFile file))

/-- The method `readTextFiles` (test.js 52-63). -/
def readTextFiles (txtFiles : List String) (s : State) : String × State :=
  (JS.trim (readTextFilesLoop txtFiles "" s).1, (readTextFilesLoop txtFiles "" s).2)

/-- The method `enhanceTextWithGPT` (test.js 65-95). -/
def enhanceTextWithGPT (env : Env) (text : String) (s : State) : Except JSError String × State :=
  if !env.openaiClient then (.error .openaiClient, s)
  else
    match env.createChatCompletion
        ("Make this text more engaging as an Instagram caption: " ++ text) with
    | .content c =>
      (.ok (JS.trim c), s.log (.createChatCompletion
        ("Make this text more engaging as an Instagram caption: " ++ text)))
    | .malformed =>
      (.ok text, s.log (.createChatCompletion
        ("Make this text more engaging as an Instagram caption: " ++ text)))
    | .rejects =>
      (.ok text, s.log (.createChatCompletion
        ("Make this text more engaging as an Instagram caption: " ++ text)))

/-- The method `postToInstagram` (test.js 97-119). -/
def postToInstagram (env : Env) (imagePath caption : String) (s : State) : Bool × State :=
  if !s.isLoggedIn then (false, s.log (.postToInstagram imagePath caption false))
  else
    match s.fs.readFileSync imagePath with
    | none => (false, (s.log (.readFile imagePath)).log (.postToInstagram imagePath caption false))
    | some imageBuffer =>
      if env.uploadPhoto imageBuffer (caption ++ "\n\n#monthlypost #automation") then
        (true, (((s.log (.readFile imagePath)).log
          (.uploadPhoto imageBuffer (caption ++ "\n\n#monthlypost #automation"))).log
          (.postToInstagram imagePath caption true)))
      else
        (false, (((s.log (.readFile imagePath)).log
          (.uploadPhoto imageBuffer (caption ++ "\n\n#monthlypost #automation"))).log
          (.postToInstagram imagePath caption false)))

/-- The method `processMonth` (test.js 121-155). -/
def processMonth (env : Env) (monthFolder : String) (force : Bool) (s : State) :
    Except JSError Unit × State :=
  let s0 := s.log (.processMonth monthFolder force)
  if s0.fs.existsSync (pathJoin monthFolder ".posted") && !force then (.ok (), s0)
  else
    match getContentForMonth monthFolder s0 with
    | (.error e, s1) => (.error e, s1)
    | (.ok (txtFiles, imageFiles), s1) =>
      if txtFiles.length = 0 ∨ imageFiles.length = 0 then (.ok (), s1)
      else
        match enhanceTextWithGPT env (readTextFiles txtFiles s1).1 (readTextFiles txtFiles s1).2 with
        | (.error e, s3) => (.error e, s3)
        | (.ok caption, s3) =>
          match postToInstagram env (imageFiles.getD (env.random % imageFiles.length) "")
              caption s3 with
          | (true, s4) =>
            (.ok (), { s4.log (.writeFile (pathJoin monthFolder ".posted")
                         (JS.toISOString env.now)) with
                       fs := s4.fs.writeFileSync (pathJoin monthFolder ".posted")
                         (JS.toISOString env.now) })
          | (false, s4) => (.ok (), s4)

/-- The `for ... of` loop of `run`. -/
def runLoop (envs : Nat → Env) (force : Bool) : List String → Nat → State →
    Except JSError Unit × State
  | [], _, s => (.ok (), s)
  | monthFolder :: rest, i, s =>
    match processMonth (envs i) monthFolder force s with
    | (.error e, s1) => (.error e, s1)
    | (.ok _, s1) => runLoop envs force rest (i + 1) (s1.log (.setTimeout 60000))

/-- The method `run` (test.js 157-182). -/
def run (penv : ProcessEnv) (auth : AuthEnv) (envs : Nat → Env)
    (specificMonth : Option String) (force : Bool) (s : State) : Except JSError Unit × State :=
  match login auth s with
  | (false, s1) => (.ok (), s1)
  | (true, s1) =>
    match getMonthFolders penv s1 with
    | (.error e, s2) => (.error e, s2)
    | (.ok monthFolders, s2) =>
      if specificMonth.getD "" ≠ "" then
        if s2.fs.existsSync (pathJoin (baseDir penv) (specificMonth.getD "")) then
          processMonth (envs 0) (pathJoin (baseDir penv) (specificMonth.getD "")) force s2
        else (.ok (), s2)
      else runLoop envs force monthFolders 0 s2

end Test

/-! ## The two files side by side -/

/-- The two legacy files. -/
inductive Legacy
  | test
  | test2
deriving DecidableEq

/-- The method `getMonthFolders` of either file. -/
def Legacy.getMonthFolders : Legacy → ProcessEnv → State → Except JSError (List String) × State
  | .test => Test.getMonthFolders
  | .test2 => Test2.getMonthFolders

/-- The method `readTextFiles` of either file. -/
def Legacy.readTextFiles : Legacy → List String → State → String × State
  | .test => Test.readTextFiles
  | .test2 => Test2.readTextFiles

/-- The method `processMonth` of either file. -/
def Legacy.processMonth : Legacy → Env → String → Bool → State → Except JSError Unit × State
  | .test => Test.processMonth
  | .test2 => Test2.processMonth

/-- The method `run` of either file. -/
def Legacy.run : Legacy → ProcessEnv → AuthEnv → (Nat → Env) → Option String → Bool → State →
    Except JSError Unit × State
  | .test => Test.run
  | .test2 => Test2.run

/-- The method `login` of either file (`old/test.js` reads no environment
variable itself). -/
def Legacy.login : Legacy → ProcessEnv → AuthEnv → State → Bool × State
  | .test => fun _ auth s => Test.login auth s
  | .test2 => Test2.login

/-- The method `postToInstagram` of either file. -/
def Legacy.postToInstagram : Legacy → Env → String → String → State → Bool × State
  | .test => Test.postToInstagram
  | .test2 => Test2.postToInstagram

/-! ## Vocabulary of the specification -/

namespace Spec

/-- An integer numeral, the way the specification names a period ("a bare
integer"): one or more decimal digits after an optional sign. -/
def isIntegerNumeral (name : String) : Bool :=
  match name.data with
  | '-' :: ds => JS.isDecimalDigits ds
  | '+' :: ds => JS.isDecimalDigits ds
  | ds => JS.isDecimalDigits ds

/-- The contents "each separated by exactly one blank line": the texts in
order with `"\n\n"` between two consecutive ones. -/
def blankLineJoin : List String → String
  | [] => ""
  | [c] => c
  | c :: rest => c ++ "\n\n" ++ blankLineJoin rest

/-- The entry into one of the three login strategies of `old/test2.js`. -/
def isStrategy : Event → Bool
  | .loginWithSavedCookies => true
  | .loginWithManualCookies => true
  | .loginWithCredentials => true
  | _ => false

/-- How a call of the Publisher ends in the words of the specification (4.4):
it returns `true` or `false`, or it fails with `NotAuthenticatedError`. -/
inductive PublishOutcome
  | returned (success : Bool)
  | notAuthenticatedError
deriving DecidableEq

/-- How a call of `postToInstagram` ends: the method contains no `throw`, and
all that follows its guard is inside `try`/`catch`, so every call returns its
boolean. -/
def outcomeOf (r : Bool × State) : PublishOutcome := .returned r.1

/-- The effects `login` may have: entering a strategy, probing or opening a
session, deleting the cookie file. -/
def loginEvents : List Event :=
  [.loginWithSavedCookies, .loginWithManualCookies, .loginWithCredentials, .getProfile,
    .clientLogin, .unlink cookieFile]

end Spec

/-! ## Sample inputs -/

namespace Sample

/-- The base directory of the sample scenario: period `1` holds the captions
"Hello" and "World" and three images, period `2` a caption and no image. -/
def fs : FS where
  existsSync p :=
    p ∈ ["content", "content/1", "content/2", "content/1/a.txt", "content/1/b.txt",
      "content/1/x.jpg", "content/1/y.PNG", "content/1/z.jpeg", "content/2/c.txt"]
  readdirSync p :=
    if p = "content" then some [⟨"1", true⟩, ⟨"2", true⟩, ⟨"notes.md", false⟩]
    else if p = "content/1" then
      some [⟨"a.txt", false⟩, ⟨"b.txt", false⟩, ⟨"x.jpg", false⟩, ⟨"y.PNG", false⟩,
        ⟨"z.jpeg", false⟩]
    else if p = "content/2" then some [⟨"c.txt", false⟩]
    else none
  readFileSync p :=
    if p = "content/1/a.txt" then some "Hello"
    else if p = "content/1/b.txt" then some "World"
    else if p = "content/1/x.jpg" then some "JPG"
    else if p = "content/1/y.PNG" then some "PNG"
    else if p = "content/1/z.jpeg" then some "JPEG"
    else if p = "content/2/c.txt" then some "Only text"
    else none

/-- A base directory holding the period directories `2`, `10` and `1`, listed
in that order. -/
def orderingFS : FS where
  existsSync p := p ∈ ["content", "content/2", "content/10", "content/1"]
  readdirSync p :=
    if p = "content" then some [⟨"2", true⟩, ⟨"10", true⟩, ⟨"1", true⟩]
    else if p ∈ ["content/2", "content/10", "content/1"] then some []
    else none
  readFileSync _ := none

/-- A base directory whose entries have numeric names that are not integer
numerals, a file named `3` and a directory named `7`. -/
def numericFS : FS where
  existsSync _ := true
  readdirSync p :=
    if p = "content" then
      some [⟨"1.5", true⟩, ⟨"1e3", true⟩, ⟨"0x10", true⟩, ⟨"Infinity", true⟩, ⟨" ", true⟩,
        ⟨"3", false⟩, ⟨"7", true⟩, ⟨"drafts", true⟩]
    else none
  readFileSync _ := none

/-- No variable of `process.env` is set. -/
def penv : ProcessEnv := ⟨none, none, none⟩

/-- An environment in which every external call succeeds; the enhancement
answers " Enhanced! ". -/
def env : Env :=
  ⟨true, fun _ => .content " Enhanced! ", fun _ _ => true, 7, 1730764800123⟩

/-- An environment in which the `openai` client cannot be built. -/
def envNoClient : Env :=
  ⟨false, fun _ => .content " Enhanced! ", fun _ _ => true, 7, 1730764800123⟩

/-- Every login strategy fails. -/
def authFails : AuthEnv := ⟨.rejects, true, .rejects, false⟩

/-- The manual cookies are supplied in `process.env`. -/
def penvCookies : ProcessEnv := ⟨none, some "48495039000%3ATDme", some "csrf"⟩

/-- No cookie file validates, the manual cookies do, and a credential login
would succeed as well. -/
def authManual : AuthEnv := ⟨.rejects, true, .profile (some "poster"), true⟩

/-- An object that never logged in, over the sample filesystem. -/
def stateLoggedOut : State := ⟨fs, false, []⟩

/-- The sample base directory with period `1` unreadable: listing it throws. -/
def lockedFS : FS where
  existsSync := fs.existsSync
  readdirSync p := if p = "content/1" then none else fs.readdirSync p
  readFileSync := fs.readFileSync

/-- A logged-in object over the sample filesystem. -/
def state : State := ⟨fs, true, []⟩

end Sample

/-! ## Shared lemmas -/

theorem Test.readTextFilesLoop_eq_test2 : Test.readTextFilesLoop = Test2.readTextFilesLoop := by
  funext l
  induction l with
  | nil => rfl
  | cons f rest ih =>
    funext t s
    simp only [Test.readTextFilesLoop, Test2.readTextFilesLoop, ih]

theorem Test.readTextFiles_eq_test2 : Test.readTextFiles = Test2.readTextFiles := by
  funext l s
  simp only [Test.readTextFiles, Test2.readTextFiles, Test.readTextFilesLoop_eq_test2]

theorem Test.processMonth_eq_test2 : Test.processMonth = Test2.processMonth := by
  funext env m force s
  have h1 : Test.getContentForMonth = Test2.getContentForMonth := rfl
  have h2 : Test.enhanceTextWithGPT = Test2.enhanceTextWithGPT := rfl
  have h3 : Test.postToInstagram = Test2.postToInstagram := rfl
  simp only [Test.processMonth, Test2.processMonth, h1, h2, h3, Test.readTextFiles_eq_test2,
    Test2.statusFile]

theorem Legacy.getMonthFolders_eq (v : Legacy) : v.getMonthFolders = Test2.getMonthFolders := by
  cases v <;> rfl

theorem Legacy.readTextFiles_eq (v : Legacy) : v.readTextFiles = Test2.readTextFiles := by
  cases v
  · exact Test.readTextFiles_eq_test2
  · rfl

theorem Legacy.processMonth_eq (v : Legacy) : v.processMonth = Test2.processMonth := by
  cases v
  · exact Test.processMonth_eq_test2
  · rfl

/-! ## Lemmas on the built-ins -/

theorem JS.trimEndChars_eq (l : List Char) :
    JS.trimEndChars l = l.rdropWhile JS.isStrWhiteSpaceChar := rfl

theorem JS.trimChars_concat_ws (l : List Char) (c : Char)
    (hc : JS.isStrWhiteSpaceChar c = true) : JS.trimChars (l ++ [c]) = JS.trimChars l := by
  unfold JS.trimChars
  induction l with
  | nil => simp [List.dropWhile, hc]
  | cons a l ih =>
    by_cases ha : JS.isStrWhiteSpaceChar a = true
    · simpa [List.dropWhile, ha] using ih
    · show JS.trimEndChars (List.dropWhile _ (a :: (l ++ [c]))) = _
      simp only [List.dropWhile, ha, JS.trimEndChars_eq]
      exact List.rdropWhile_concat_pos _ (a :: l) _ hc

theorem JS.trim_append_blank_line (t : String) : JS.trim (t ++ "\n\n") = JS.trim t := by
  have h : (t ++ "\n\n").data = (t.data ++ ['\n']) ++ ['\n'] := by
    simp [String.data_append]
  unfold JS.trim
  rw [h, JS.trimChars_concat_ws _ _ (by decide), JS.trimChars_concat_ws _ _ (by decide)]

/-! ## Lemmas on `readTextFiles` -/

/-- What the loop of `readTextFiles` appends to `fullText`: the content of
each readable file followed by a blank line. -/
theorem Test2.readTextFilesLoop_fst (fs : FS) (files : List String) :
    ∀ (fullText : String) (s : State), s.fs = fs →
      (Test2.readTextFilesLoop files fullText s).1 =
        fullText ++ (files.filterMap fs.readFileSync).foldr (fun c acc => c ++ "\n\n" ++ acc) "" := by
  induction files with
  | nil => intro t s _; simp [Test2.readTextFilesLoop]
  | cons f rest ih =>
    intro t s hs
    subst hs
    cases hf : s.fs.readFileSync f with
    | none =>
      simp only [Test2.readTextFilesLoop, hf, List.filterMap_cons]
      exact ih _ (s.log (Event.readFile f)) rfl
    | some c =>
      simp only [Test2.readTextFilesLoop, hf, List.filterMap_cons]
      rw [ih _ (s.log (Event.readFile f)) rfl]
      simp [String.append_assoc]

/-- The loop of `readTextFiles` leaves the filesystem and the login flag as
they are and records one read per file. -/
theorem Test2.readTextFilesLoop_snd (files : List String) :
    ∀ (fullText : String) (s : State),
      (Test2.readTextFilesLoop files fullText s).2 =
        { s with trace := s.trace ++ files.map Event.readFile } := by
  induction files with
  | nil => intro t s; simp [Test2.readTextFilesLoop]
  | cons f rest ih =>
    intro t s
    cases hf : s.fs.readFileSync f <;>
      simp [Test2.readTextFilesLoop, hf, ih, State.log]

theorem Spec.trim_blank_line_terminated (cs : List String) :
    JS.trim (cs.foldr (fun c acc => c ++ "\n\n" ++ acc) "") = JS.trim (Spec.blankLineJoin cs) := by
  have key : ∀ (rest : List String) (c : String),
      (c :: rest).foldr (fun c acc => c ++ "\n\n" ++ acc) "" =
        Spec.blankLineJoin (c :: rest) ++ "\n\n" := by
    intro rest
    induction rest with
    | nil => intro c; simp [Spec.blankLineJoin]
    | cons d rest ih =>
      intro c
      rw [List.foldr_cons, ih d]
      simp [Spec.blankLineJoin, String.append_assoc]
  cases cs with
  | nil => simp [Spec.blankLineJoin]
  | cons c rest => rw [key, JS.trim_append_blank_line]

/-- The caption assembled by `readTextFiles`, in closed form. -/
theorem Test2.readTextFiles_fst (files : List String) (s : State) :
    (Test2.readTextFiles files s).1 =
      JS.trim (Spec.blankLineJoin (files.filterMap s.fs.readFileSync)) := by
  simp only [Test2.readTextFiles]
  rw [Test2.readTextFilesLoop_fst s.fs files "" s rfl, ← Spec.trim_blank_line_terminated]
  simp

/-- Claim C6: For a list of readable caption files, `readTextFiles` (in either
file) returns their contents in the order given, two consecutive contents
separated by exactly `"\n\n"`, white space trimmed at both ends of the whole. -/
theorem readTextFiles_joins_contents (v : Legacy) (txtFiles : List String) (s : State)
    (hread : ∀ f ∈ txtFiles, (s.fs.readFileSync f).isSome = true) :
    (v.readTextFiles txtFiles s).1 =
      JS.trim (Spec.blankLineJoin (txtFiles.map (fun f => (s.fs.readFileSync f).getD ""))) := by
  rw [Legacy.readTextFiles_eq, Test2.readTextFiles_fst]
  congr 2
  induction txtFiles with
  | nil => rfl
  | cons f rest ih =>
    have hf := hread f (List.mem_cons_self _ _)
    obtain ⟨c, hc⟩ := Option.isSome_iff_exists.mp hf
    simp only [List.filterMap_cons, hc, List.map_cons, Option.getD_some]
    rw [ih (fun g hg => hread g (List.mem_cons_of_mem _ hg))]

/-- The sample scenario of C6: the captions "Hello" and "World" are assembled
to `"Hello\n\nWorld"`. -/
theorem readTextFiles_joins_contents_witness :
    (∀ f ∈ ["content/1/a.txt", "content/1/b.txt"], (Sample.state.fs.readFileSync f).isSome = true) ∧
    (Legacy.test2.readTextFiles ["content/1/a.txt", "content/1/b.txt"] Sample.state).1 =
      "Hello\n\nWorld" :=
  ⟨by decide,
   (readTextFiles_joins_contents .test2 ["content/1/a.txt", "content/1/b.txt"] Sample.state
      (by decide)).trans (by decide)⟩

theorem JS.trimChars_of_no_ws (l : List Char)
    (h : ∀ c ∈ l, JS.isStrWhiteSpaceChar c = false) : JS.trimChars l = l := by
  unfold JS.trimChars
  have h1 : l.dropWhile JS.isStrWhiteSpaceChar = l := by
    cases l with
    | nil => rfl
    | cons a l => simp [List.dropWhile, h a (List.mem_cons_self _ _)]
  rw [h1, JS.trimEndChars_eq, List.rdropWhile_eq_self_iff]
  intro hl
  simp [h _ (List.getLast_mem hl)]

theorem JS.isDecimalDigit_not_ws (c : Char) (h : JS.isDecimalDigit c = true) :
    JS.isStrWhiteSpaceChar c = false := by
  simp only [JS.isDecimalDigit, Bool.and_eq_true, decide_eq_true_eq] at h
  simp only [JS.isStrWhiteSpaceChar]
  simp only [Bool.or_eq_false_iff, Bool.and_eq_false_iff, beq_eq_false_iff_ne, ne_eq,
    decide_eq_false_iff_not]
  omega

theorem JS.isStrUnsignedDecimalLiteral_of_digits (ds : List Char)
    (h : JS.isDecimalDigits ds = true) : JS.isStrUnsignedDecimalLiteral ds = true := by
  simp only [JS.isDecimalDigits, Bool.and_eq_true, List.all_eq_true] at h
  have hd : ds.dropWhile JS.isDecimalDigit = [] := by
    rw [List.dropWhile_eq_nil_iff]; exact h.2
  have ht : ds.takeWhile JS.isDecimalDigit = ds := by
    rw [List.takeWhile_eq_self_iff]; exact h.2
  simp only [JS.isStrUnsignedDecimalLiteral, hd, ht, JS.isExponentPartOpt, h.1]
  simp

theorem JS.isNaN_of_integer_numeral (name : String) (h : Spec.isIntegerNumeral name = true) :
    JS.isNaN name = false := by
  have hall : ∀ ds, JS.isDecimalDigits ds = true → ∀ c ∈ ds, JS.isStrWhiteSpaceChar c = false := by
    intro ds hds c hc
    simp only [JS.isDecimalDigits, Bool.and_eq_true, List.all_eq_true] at hds
    exact JS.isDecimalDigit_not_ws c (hds.2 c hc)
  unfold Spec.isIntegerNumeral at h
  unfold JS.isNaN
  split at h
  · next ds hn =>
    rw [hn, JS.trimChars_of_no_ws]
    · simp [JS.isStrDecimalLiteral, JS.isStrUnsignedDecimalLiteral_of_digits ds h]
    · intro c hc
      rcases List.mem_cons.mp hc with rfl | hc
      · decide
      · exact hall ds h c hc
  · next ds hn =>
    rw [hn, JS.trimChars_of_no_ws]
    · simp [JS.isStrDecimalLiteral, JS.isStrUnsignedDecimalLiteral_of_digits ds h]
    · intro c hc
      rcases List.mem_cons.mp hc with rfl | hc
      · decide
      · exact hall ds h c hc
  · next ds h1 h2 =>
    rw [JS.trimChars_of_no_ws _ (hall _ h)]
    have : JS.isStrDecimalLiteral name.data = true := by
      unfold JS.isStrDecimalLiteral
      split
      · next l heq => exact absurd heq (h2 l)
      · next l heq => exact absurd heq (h1 l)
      · exact JS.isStrUnsignedDecimalLiteral_of_digits _ h
    simp [this]

theorem JS.sort_perm (l : List String) : (JS.sort l).Perm l :=
  List.perm_insertionSort _ l

/-- Claim C4: At the base directory holding the period directories `2`, `10`
and `1`, `getMonthFolders` (in either file) returns them with `10` before `2`:
the order of `sort()` without comparator is the order of the path strings,
not the order of the integers. -/
theorem getMonthFolders_orders_paths_as_strings (v : Legacy) :
    (v.getMonthFolders Sample.penv ⟨Sample.orderingFS, true, []⟩).1 =
      .ok ["content/1", "content/10", "content/2"] := by
  cases v <;> rfl

/-- Claim C5 as stated fails: The directories named `" "`, `0x10`, `1.5`,
`1e3` and `Infinity` are returned by `getMonthFolders` of both files, and none
of these names is an integer numeral. -/
theorem getMonthFolders_keeps_non_integer_names :
    (Test2.getMonthFolders Sample.penv ⟨Sample.numericFS, true, []⟩).1 =
      .ok ["content/ ", "content/0x10", "content/1.5", "content/1e3", "content/7",
        "content/Infinity"] ∧
    (Test.getMonthFolders Sample.penv ⟨Sample.numericFS, true, []⟩).1 =
      .ok ["content/ ", "content/0x10", "content/1.5", "content/1e3", "content/7",
        "content/Infinity"] ∧
    Spec.isIntegerNumeral " " = false ∧ Spec.isIntegerNumeral "0x10" = false ∧
    Spec.isIntegerNumeral "1.5" = false ∧ Spec.isIntegerNumeral "1e3" = false ∧
    Spec.isIntegerNumeral "Infinity" = false :=
  ⟨rfl, rfl, by decide, by decide, by decide, by decide, by decide⟩

/-- Claim C5, amended: For every listing of the base directory,
`getMonthFolders` (in either file) returns, up to order, exactly the paths of
the entries that are directories and whose name `isNaN` accepts as a number;
every directory named by an integer numeral is among them. -/
theorem getMonthFolders_keeps_numeric_directories (v : Legacy) (penv : ProcessEnv) (s : State)
    (entries : List Dirent) (hls : s.fs.readdirSync (baseDir penv) = some entries) :
    ∃ folders, (v.getMonthFolders penv s).1 = .ok folders ∧
      folders.Perm ((entries.filter (fun e => e.isDirectory && !JS.isNaN e.name)).map
        (fun e => pathJoin (baseDir penv) e.name)) ∧
      (∀ p, p ∈ folders ↔ ∃ e ∈ entries, e.isDirectory = true ∧ JS.isNaN e.name = false ∧
        p = pathJoin (baseDir penv) e.name) ∧
      (∀ e ∈ entries, e.isDirectory = true → Spec.isIntegerNumeral e.name = true →
        pathJoin (baseDir penv) e.name ∈ folders) := by
  rw [Legacy.getMonthFolders_eq]
  have hmem : ∀ p, p ∈ JS.sort ((entries.filter (fun e => e.isDirectory && !JS.isNaN e.name)).map
      (fun e => pathJoin (baseDir penv) e.name)) ↔ ∃ e ∈ entries, e.isDirectory = true ∧
        JS.isNaN e.name = false ∧ p = pathJoin (baseDir penv) e.name := by
    intro p
    rw [(JS.sort_perm _).mem_iff, List.mem_map]
    constructor
    · rintro ⟨e, he, rfl⟩
      simp only [List.mem_filter, Bool.and_eq_true, Bool.not_eq_true'] at he
      exact ⟨e, he.1, he.2.1, he.2.2, rfl⟩
    · rintro ⟨e, he, hd, hn, rfl⟩
      exact ⟨e, by simp [List.mem_filter, he, hd, hn], rfl⟩
  refine ⟨_, by simp only [Test2.getMonthFolders, hls], JS.sort_perm _, hmem, ?_⟩
  intro e he hd hi
  exact (hmem _).mpr ⟨e, he, hd, JS.isNaN_of_integer_numeral _ hi, rfl⟩

/-- The amended C5 at the listing of `Sample.numericFS`: the directory `7` is
returned, next to the five directories with other numeric names; the file `3`
and the directory `drafts` are not. -/
theorem getMonthFolders_keeps_numeric_directories_witness :
    Sample.numericFS.readdirSync (baseDir Sample.penv) =
      some [⟨"1.5", true⟩, ⟨"1e3", true⟩, ⟨"0x10", true⟩, ⟨"Infinity", true⟩, ⟨" ", true⟩,
        ⟨"3", false⟩, ⟨"7", true⟩, ⟨"drafts", true⟩] ∧
    ∃ folders, (Legacy.test2.getMonthFolders Sample.penv ⟨Sample.numericFS, true, []⟩).1 =
        .ok folders ∧
      folders.Perm ["content/1.5", "content/1e3", "content/0x10", "content/Infinity",
        "content/ ", "content/7"] :=
  ⟨rfl,
   (getMonthFolders_keeps_numeric_directories .test2 Sample.penv ⟨Sample.numericFS, true, []⟩
      _ rfl).imp (fun _ h => ⟨h.1, h.2.1⟩)⟩

/-! ## Lemmas on `processMonth` -/

theorem Test2.readTextFiles_snd (files : List String) (s : State) :
    (Test2.readTextFiles files s).2 = { s with trace := s.trace ++ files.map Event.readFile } := by
  simp only [Test2.readTextFiles, Test2.readTextFilesLoop_snd]

/-- With the client built, `enhanceTextWithGPT` returns a caption and records
the request. -/
theorem Test2.enhanceTextWithGPT_of_client (env : Env) (text : String)
    (h : env.openaiClient = true) :
    ∃ caption, ∀ s' : State, Test2.enhanceTextWithGPT env text s' =
      (.ok caption,
        { s' with trace := s'.trace ++ [.createChatCompletion (Test2.enhancePrompt text)] }) := by
  cases hchat : env.createChatCompletion (Test2.enhancePrompt text) with
  | rejects =>
    exact ⟨text, fun s' => by simp [Test2.enhanceTextWithGPT, h, hchat, State.log]⟩
  | malformed =>
    exact ⟨text, fun s' => by simp [Test2.enhanceTextWithGPT, h, hchat, State.log]⟩
  | content c =>
    exact ⟨JS.trim c, fun s' => by simp [Test2.enhanceTextWithGPT, h, hchat, State.log]⟩

/-- The two ways out of `postToInstagram`: `false`, after at most a read of
the image and an upload attempt, or `true`, after both succeeded while logged
in. Neither touches the filesystem or the login flag. -/
theorem Test2.postToInstagram_cases (env : Env) (imagePath caption : String) (s : State) :
    (∃ evs, Test2.postToInstagram env imagePath caption s =
        (false, { s with trace := s.trace ++ (evs ++ [.postToInstagram imagePath caption false]) }) ∧
      (∀ e ∈ evs, e = .readFile imagePath ∨ ∃ photo, e = .uploadPhoto photo (Test2.uploadCaption caption)) ∧
      (s.isLoggedIn = false → evs = [])) ∨
    (∃ photo, s.isLoggedIn = true ∧ s.fs.readFileSync imagePath = some photo ∧
      env.uploadPhoto photo (Test2.uploadCaption caption) = true ∧
      Test2.postToInstagram env imagePath caption s =
        (true, { s with trace := s.trace ++ [.readFile imagePath,
          .uploadPhoto photo (Test2.uploadCaption caption),
          .postToInstagram imagePath caption true] })) := by
  unfold Test2.postToInstagram
  cases hlog : s.isLoggedIn with
  | false => exact Or.inl ⟨[], by simp [State.log, hlog]⟩
  | true =>
    cases himg : s.fs.readFileSync imagePath with
    | none => exact Or.inl ⟨[.readFile imagePath], by simp [State.log, hlog]⟩
    | some photo =>
      cases hup : env.uploadPhoto photo (Test2.uploadCaption caption) with
      | false =>
        exact Or.inl ⟨[.readFile imagePath, .uploadPhoto photo (Test2.uploadCaption caption)],
          by simp [State.log, hlog, hup]⟩
      | true => exact Or.inr ⟨photo, rfl, rfl, hup, by simp [State.log, hlog, hup]⟩

/-- The paths through `processMonth`, each with the result and the state it
ends in: the return at the marker check; the throw of `readdirSync`; the
return for missing content; the throw while the `openai` client is built; a
publish call that returned `false`; a publish call that returned `true`,
followed by the marker write. -/
theorem Test2.processMonth_cases (env : Env) (m : String) (force : Bool) (s : State) :
    (s.fs.existsSync (Test2.statusFile m) = true ∧ force = false ∧
      Test2.processMonth env m force s =
        (.ok (), { s with trace := s.trace ++ [.processMonth m force] })) ∨
    ((s.fs.existsSync (Test2.statusFile m) = false ∨ force = true) ∧
      s.fs.readdirSync m = none ∧
      Test2.processMonth env m force s =
        (.error (.readdir m), { s with trace := s.trace ++ [.processMonth m force, .readdir m] })) ∨
    (∃ entries, (s.fs.existsSync (Test2.statusFile m) = false ∨ force = true) ∧
      s.fs.readdirSync m = some entries ∧
      (((Test2.txtFilesIn m entries = [] ∨ Test2.imageFilesIn m entries = []) ∧
        Test2.processMonth env m force s =
          (.ok (), { s with trace := s.trace ++ [.processMonth m force, .readdir m, .readdir m] })) ∨
       (Test2.txtFilesIn m entries ≠ [] ∧ Test2.imageFilesIn m entries ≠ [] ∧
        ((env.openaiClient = false ∧
          Test2.processMonth env m force s =
            (.error .openaiClient, { s with trace := s.trace ++
              ([.processMonth m force, .readdir m, .readdir m] ++
                (Test2.txtFilesIn m entries).map Event.readFile) })) ∨
         (env.openaiClient = true ∧ ∃ caption,
          (∀ s', (Test2.enhanceTextWithGPT env (Test2.readTextFiles (Test2.txtFilesIn m entries) s).1
            s').1 = .ok caption) ∧
          ((∃ evs, Test2.processMonth env m force s =
              (.ok (), { s with trace := s.trace ++
                ([.processMonth m force, .readdir m, .readdir m] ++
                  (Test2.txtFilesIn m entries).map Event.readFile ++
                  [.createChatCompletion (Test2.enhancePrompt
                    (Test2.readTextFiles (Test2.txtFilesIn m entries) s).1)] ++ evs ++
                  [.postToInstagram ((Test2.imageFilesIn m entries).getD
                    (env.random % (Test2.imageFilesIn m entries).length) "") caption false]) }) ∧
              ∀ e ∈ evs, (∃ p, e = .readFile p) ∨ ∃ photo cap, e = .uploadPhoto photo cap) ∨
           (∃ photo, s.isLoggedIn = true ∧
              s.fs.readFileSync ((Test2.imageFilesIn m entries).getD
                (env.random % (Test2.imageFilesIn m entries).length) "") = some photo ∧
              env.uploadPhoto photo (Test2.uploadCaption caption) = true ∧
              Test2.processMonth env m force s =
                (.ok (), { fs := s.fs.writeFileSync (Test2.statusFile m) (JS.toISOString env.now),
                           isLoggedIn := s.isLoggedIn,
                           trace := s.trace ++
                    ([.processMonth m force, .readdir m, .readdir m] ++
                      (Test2.txtFilesIn m entries).map Event.readFile ++
                      [.createChatCompletion (Test2.enhancePrompt
                        (Test2.readTextFiles (Test2.txtFilesIn m entries) s).1),
                       .readFile ((Test2.imageFilesIn m entries).getD
                        (env.random % (Test2.imageFilesIn m entries).length) ""),
                       .uploadPhoto photo (Test2.uploadCaption caption),
                       .postToInstagram ((Test2.imageFilesIn m entries).getD
                        (env.random % (Test2.imageFilesIn m entries).length) "") caption true,
                       .writeFile (Test2.statusFile m) (JS.toISOString env.now)]) })))))))) := by
  unfold Test2.processMonth
  by_cases hskip : (s.fs.existsSync (Test2.statusFile m) && !force) = true
  · left
    simp only [Bool.and_eq_true, Bool.not_eq_true'] at hskip
    simp [State.log, hskip.1, hskip.2]
  · right
    have hskip' : s.fs.existsSync (Test2.statusFile m) = false ∨ force = true := by
      cases h1 : s.fs.existsSync (Test2.statusFile m) <;> cases h2 : force <;> simp_all
    cases hrd : s.fs.readdirSync m with
    | none =>
      left
      simp [State.log, hskip, Test2.getContentForMonth, hrd, hskip']
    | some entries =>
      right
      refine ⟨entries, hskip', rfl, ?_⟩
      simp only [State.log, hskip, Test2.getContentForMonth, hrd, List.append_assoc,
        Bool.false_eq_true, if_false]
      by_cases hempty : (Test2.txtFilesIn m entries).length = 0 ∨
          (Test2.imageFilesIn m entries).length = 0
      · left
        simp only [hempty, if_true]
        simp only [List.length_eq_zero] at hempty
        exact ⟨hempty, by simp⟩
      · right
        simp only [hempty, if_false]
        simp only [List.length_eq_zero, not_or] at hempty
        refine ⟨hempty.1, hempty.2, ?_⟩
        cases hcl : env.openaiClient with
        | false =>
          left
          simp [Test2.enhanceTextWithGPT, hcl, Test2.readTextFiles_snd]
        | true =>
          right
          refine ⟨rfl, ?_⟩
          obtain ⟨caption, hcap⟩ := Test2.enhanceTextWithGPT_of_client env
            (Test2.readTextFiles (Test2.txtFilesIn m entries) s).1 hcl
          refine ⟨caption, fun s' => by rw [hcap s'], ?_⟩
          have hft : ∀ s' : State, s'.fs = s.fs →
              (Test2.readTextFiles (Test2.txtFilesIn m entries) s').1 =
                (Test2.readTextFiles (Test2.txtFilesIn m entries) s).1 := by
            intro s' hs'
            rw [Test2.readTextFiles_fst, Test2.readTextFiles_fst, hs']
          rw [hft { fs := s.fs, isLoggedIn := s.isLoggedIn,
                    trace := s.trace ++ ([Event.processMonth m force] ++
                      ([Event.readdir m] ++ [Event.readdir m])) } rfl,
            hcap, Test2.readTextFiles_snd]
          simp only [List.append_assoc]
          rcases Test2.postToInstagram_cases env
            ((Test2.imageFilesIn m entries).getD
              (env.random % (Test2.imageFilesIn m entries).length) "") caption
            { fs := s.fs, isLoggedIn := s.isLoggedIn,
              trace := s.trace ++ ([Event.processMonth m force] ++ ([Event.readdir m] ++
                ([Event.readdir m] ++ (List.map Event.readFile (Test2.txtFilesIn m entries) ++
                  [Event.createChatCompletion (Test2.enhancePrompt
                    (Test2.readTextFiles (Test2.txtFilesIn m entries) s).1)])))) }
            with ⟨evs, hpost, hevs, _⟩ | ⟨photo, hlog, himg, hup, hpost⟩
          · left
            refine ⟨evs, ?_, ?_⟩
            · rw [hpost]; simp
            · intro e he
              rcases hevs e he with h | ⟨photo, h⟩
              · exact Or.inl ⟨_, h⟩
              · exact Or.inr ⟨_, _, h⟩
          · right
            refine ⟨photo, hlog, himg, hup, ?_⟩
            rw [hpost]; simp

theorem Test2.txtFilesIn_eq_nil (m : String) (entries : List Dirent)
    (h : ∀ e ∈ entries, JS.endsWith e.name ".txt" = false) : Test2.txtFilesIn m entries = [] := by
  simp only [Test2.txtFilesIn, List.map_eq_nil_iff, List.filter_eq_nil_iff, List.mem_map]
  rintro file ⟨e, he, rfl⟩
  simp [h e he]

theorem Test2.imageFilesIn_eq_nil (m : String) (entries : List Dirent)
    (h : ∀ e ∈ entries, JS.testImagePattern e.name = false) :
    Test2.imageFilesIn m entries = [] := by
  simp only [Test2.imageFilesIn, List.map_eq_nil_iff, List.filter_eq_nil_iff, List.mem_map]
  rintro file ⟨e, he, rfl⟩
  simp [h e he]

/-- Claim C3: In a period directory that lists no `.txt` file or no image, for
every `force` and every outcome of the external calls, `processMonth` (in
either file) returns without error, leaves the filesystem and the login flag
as they were, and its only effects are its entry and the listing of the
directory: no enhancement request, no publish call, no marker write. -/
theorem processMonth_skips_missing_content (v : Legacy) (env : Env) (monthFolder : String)
    (force : Bool) (s : State) (entries : List Dirent)
    (hdir : s.fs.readdirSync monthFolder = some entries)
    (hempty : (∀ e ∈ entries, JS.endsWith e.name ".txt" = false) ∨
      (∀ e ∈ entries, JS.testImagePattern e.name = false)) :
    (v.processMonth env monthFolder force s).1 = .ok () ∧
    (v.processMonth env monthFolder force s).2.fs = s.fs ∧
    (v.processMonth env monthFolder force s).2.isLoggedIn = s.isLoggedIn ∧
    ∃ ev, (v.processMonth env monthFolder force s).2.trace = s.trace ++ ev ∧
      ∀ e ∈ ev, e = .processMonth monthFolder force ∨ e = .readdir monthFolder := by
  rw [Legacy.processMonth_eq]
  rcases Test2.processMonth_cases env monthFolder force s with
    ⟨_, _, h⟩ | ⟨_, hnone, _⟩ | ⟨entries', _, hsome, ⟨_, h⟩ | ⟨htxt, himg, _⟩⟩
  · rw [h]; exact ⟨rfl, rfl, rfl, _, rfl, by simp⟩
  · rw [hdir] at hnone; cases hnone
  · rw [h]; exact ⟨rfl, rfl, rfl, _, rfl, by simp⟩
  · rw [hdir] at hsome
    cases hsome
    rcases hempty with h | h
    · exact absurd (Test2.txtFilesIn_eq_nil monthFolder entries h) htxt
    · exact absurd (Test2.imageFilesIn_eq_nil monthFolder entries h) himg

/-- The sample period `content/2` holds a caption and no image: with `force`
on, `processMonth` lists it and returns. -/
theorem processMonth_skips_missing_content_witness :
    Sample.state.fs.readdirSync "content/2" = some [⟨"c.txt", false⟩] ∧
    ((∀ e ∈ [(⟨"c.txt", false⟩ : Dirent)], JS.endsWith e.name ".txt" = false) ∨
      (∀ e ∈ [(⟨"c.txt", false⟩ : Dirent)], JS.testImagePattern e.name = false)) ∧
    (Legacy.test2.processMonth Sample.env "content/2" true Sample.state).1 = .ok () ∧
    (Legacy.test2.processMonth Sample.env "content/2" true Sample.state).2.trace =
      [.processMonth "content/2" true, .readdir "content/2", .readdir "content/2"] :=
  ⟨rfl, Or.inr (by decide),
   (processMonth_skips_missing_content .test2 Sample.env "content/2" true Sample.state
     [⟨"c.txt", false⟩] rfl (Or.inr (by decide))).1,
   by decide⟩

/-- Claim C8 at the failing input: When the `openai` client cannot be loaded or
built, `enhanceTextWithGPT` throws instead of returning the text (whatever the
text, the state and the other outcomes); on the sample period `content/1`
`processMonth` then ends with that exception after reading the captions, and
`postToInstagram` is not called. -/
theorem enhanceTextWithGPT_throws_without_client :
    (∀ (text : String) (s : State) (chat : String → ChatResult)
        (upload : String → String → Bool) (random now : Nat),
      Test2.enhanceTextWithGPT ⟨false, chat, upload, random, now⟩ text s =
        (.error .openaiClient, s)) ∧
    (Test2.processMonth Sample.envNoClient "content/1" false Sample.state).1 =
      .error .openaiClient ∧
    (Test2.processMonth Sample.envNoClient "content/1" false Sample.state).2.trace =
      [.processMonth "content/1" false, .readdir "content/1", .readdir "content/1",
        .readFile "content/1/a.txt", .readFile "content/1/b.txt"] :=
  ⟨fun _ _ _ _ _ _ => rfl, rfl, by decide⟩

/-- What holds of C8: with the client built, a request that rejects or a
response without content makes `enhanceTextWithGPT` return the text it was
given. -/
theorem Test2.enhanceTextWithGPT_falls_back (env : Env) (text : String) (s : State)
    (hclient : env.openaiClient = true)
    (hfail : env.createChatCompletion (Test2.enhancePrompt text) = .rejects ∨
      env.createChatCompletion (Test2.enhancePrompt text) = .malformed) :
    (Test2.enhanceTextWithGPT env text s).1 = .ok text := by
  rcases hfail with h | h <;> simp [Test2.enhanceTextWithGPT, hclient, h]

/-! ## Lemmas on `login` -/

theorem Test2.loginWithSavedCookies_effects (auth : AuthEnv) (s : State) :
    ∃ ev, (Test2.loginWithSavedCookies auth s).2.trace = s.trace ++ ev ∧
      ev.filter Spec.isStrategy = [.loginWithSavedCookies] ∧
      (∀ e ∈ ev, e ∈ Spec.loginEvents) ∧
      ((Test2.loginWithSavedCookies auth s).2.fs = s.fs ∨
        (Test2.loginWithSavedCookies auth s).2.fs = s.fs.unlinkSync cookieFile) := by
  unfold Test2.loginWithSavedCookies
  cases s.fs.existsSync cookieFile with
  | false => exact ⟨[.loginWithSavedCookies], by simp [State.log, Spec.isStrategy, Spec.loginEvents]⟩
  | true =>
    cases auth.savedCookies with
    | profile u =>
      exact ⟨[.loginWithSavedCookies, .getProfile],
        by simp [State.log, Spec.isStrategy, Spec.loginEvents]⟩
    | rejects =>
      exact ⟨[.loginWithSavedCookies, .getProfile, .unlink cookieFile],
        by simp [State.log, Spec.isStrategy, Spec.loginEvents]⟩
    | nullish =>
      exact ⟨[.loginWithSavedCookies, .getProfile, .unlink cookieFile],
        by simp [State.log, Spec.isStrategy, Spec.loginEvents]⟩

theorem Test2.loginWithManualCookies_effects (penv : ProcessEnv) (auth : AuthEnv) (s : State) :
    ∃ ev, (Test2.loginWithManualCookies penv auth s).2.trace = s.trace ++ ev ∧
      ev.filter Spec.isStrategy = [.loginWithManualCookies] ∧
      (∀ e ∈ ev, e ∈ Spec.loginEvents) ∧
      (Test2.loginWithManualCookies penv auth s).2.fs = s.fs := by
  unfold Test2.loginWithManualCookies
  simp only []
  split
  · exact ⟨[.loginWithManualCookies], by simp [State.log, Spec.isStrategy, Spec.loginEvents]⟩
  · split
    · exact ⟨[.loginWithManualCookies], by simp [State.log, Spec.isStrategy, Spec.loginEvents]⟩
    · split
      · split
        · exact ⟨[.loginWithManualCookies, .getProfile],
            by simp [State.log, Spec.isStrategy, Spec.loginEvents]⟩
        · exact ⟨[.loginWithManualCookies, .getProfile],
            by simp [State.log, Spec.isStrategy, Spec.loginEvents]⟩
      · exact ⟨[.loginWithManualCookies, .getProfile],
          by simp [State.log, Spec.isStrategy, Spec.loginEvents]⟩

theorem Test2.loginWithCredentials_effects (auth : AuthEnv) (s : State) :
    ∃ ev, (Test2.loginWithCredentials auth s).2.trace = s.trace ++ ev ∧
      ev.filter Spec.isStrategy = [.loginWithCredentials] ∧
      (∀ e ∈ ev, e ∈ Spec.loginEvents) ∧
      (Test2.loginWithCredentials auth s).2.fs = s.fs := by
  unfold Test2.loginWithCredentials
  cases auth.clientLogin <;>
    exact ⟨[.loginWithCredentials, .clientLogin],
      by simp [State.log, Spec.isStrategy, Spec.loginEvents]⟩

/-- The three ways through `login` of `old/test2.js`, with the events, the
result and the filesystem of each. -/
theorem Test2.login_cases (penv : ProcessEnv) (auth : AuthEnv) (s : State) :
    ∃ ev, (Test2.login penv auth s).2.trace = s.trace ++ ev ∧
      (∀ e ∈ ev, e ∈ Spec.loginEvents) ∧
      ((Test2.login penv auth s).2.fs = s.fs ∨
        (Test2.login penv auth s).2.fs = s.fs.unlinkSync cookieFile) ∧
      ((ev.filter Spec.isStrategy = [.loginWithSavedCookies] ∧
          (Test2.loginWithSavedCookies auth s).1 = true ∧
          (Test2.login penv auth s).1 = true) ∨
       (ev.filter Spec.isStrategy = [.loginWithSavedCookies, .loginWithManualCookies] ∧
          (Test2.loginWithSavedCookies auth s).1 = false ∧
          (Test2.loginWithManualCookies penv auth (Test2.loginWithSavedCookies auth s).2).1 = true ∧
          (Test2.login penv auth s).1 = true) ∨
       (ev.filter Spec.isStrategy =
            [.loginWithSavedCookies, .loginWithManualCookies, .loginWithCredentials] ∧
          (Test2.loginWithSavedCookies auth s).1 = false ∧
          (Test2.loginWithManualCookies penv auth (Test2.loginWithSavedCookies auth s).2).1 = false ∧
          (Test2.login penv auth s).1 =
            (Test2.loginWithCredentials auth (Test2.loginWithManualCookies penv auth
              (Test2.loginWithSavedCookies auth s).2).2).1)) := by
  obtain ⟨ev1, ht1, hs1, hl1, hf1⟩ := Test2.loginWithSavedCookies_effects auth s
  obtain ⟨ev2, ht2, hs2, hl2, hf2⟩ :=
    Test2.loginWithManualCookies_effects penv auth (Test2.loginWithSavedCookies auth s).2
  obtain ⟨ev3, ht3, hs3, hl3, hf3⟩ :=
    Test2.loginWithCredentials_effects auth
      (Test2.loginWithManualCookies penv auth (Test2.loginWithSavedCookies auth s).2).2
  unfold Test2.login
  rcases h1 : Test2.loginWithSavedCookies auth s with ⟨b1, s1⟩
  rw [h1] at ht1 hf1 ht2 hf2 ht3 hf3
  cases b1 with
  | true => exact ⟨ev1, ht1, hl1, hf1, Or.inl ⟨hs1, by simp, by simp⟩⟩
  | false =>
    simp only []
    rcases h2 : Test2.loginWithManualCookies penv auth s1 with ⟨b2, s2⟩
    rw [h2] at ht2 hf2 ht3 hf3
    simp only at ht1 hf1 ht2 hf2 ht3 hf3
    cases b2 with
    | true =>
      refine ⟨ev1 ++ ev2, by simp only [ht2, ht1, List.append_assoc], ?_, ?_, ?_⟩
      · intro e he
        rcases List.mem_append.mp he with h | h
        · exact hl1 e h
        · exact hl2 e h
      · rw [hf2]; exact hf1
      · exact Or.inr (Or.inl ⟨by simp [List.filter_append, hs1, hs2], by simp, by simp, by simp⟩)
    | false =>
      simp only []
      rcases h3 : Test2.loginWithCredentials auth s2 with ⟨b3, s3⟩
      rw [h3] at ht3 hf3
      simp only at ht3 hf3
      refine ⟨ev1 ++ (ev2 ++ ev3), ?_, ?_, ?_, ?_⟩
      · cases b3 <;> simp only [ht3, ht2, ht1, List.append_assoc]
      · intro e he
        rcases List.mem_append.mp he with h | h
        · exact hl1 e h
        · rcases List.mem_append.mp h with h | h
          · exact hl2 e h
          · exact hl3 e h
      · cases b3 <;> (simp only [hf3, hf2]; exact hf1)
      · refine Or.inr (Or.inr ⟨by simp [List.filter_append, hs1, hs2, hs3], by simp, by simp, ?_⟩)
        cases b3 <;> simp

/-- Claim C9: `login` of `old/test2.js` enters its strategies in the order saved
cookies, manual cookies, credentials and stops at the first that returns
`true`: the strategies entered are an initial part of that list, a later one
is entered only if every earlier one returned `false`, `login` returns `true`
exactly when a strategy it entered did, and when the saved cookies fail and
the manual cookies succeed, `loginWithCredentials` is not called. -/
theorem login_tries_strategies_in_order (penv : ProcessEnv) (auth : AuthEnv) (s : State) :
    ∃ ev, (Test2.login penv auth s).2.trace = s.trace ++ ev ∧
      (ev.filter Spec.isStrategy = [.loginWithSavedCookies] ∨
       ev.filter Spec.isStrategy = [.loginWithSavedCookies, .loginWithManualCookies] ∨
       ev.filter Spec.isStrategy =
         [.loginWithSavedCookies, .loginWithManualCookies, .loginWithCredentials]) ∧
      (Event.loginWithManualCookies ∈ ev → (Test2.loginWithSavedCookies auth s).1 = false) ∧
      (Event.loginWithCredentials ∈ ev →
        (Test2.loginWithSavedCookies auth s).1 = false ∧
        (Test2.loginWithManualCookies penv auth (Test2.loginWithSavedCookies auth s).2).1 = false) ∧
      ((Test2.login penv auth s).1 = true ↔
        (Test2.loginWithSavedCookies auth s).1 = true ∨
        (Event.loginWithManualCookies ∈ ev ∧
          (Test2.loginWithManualCookies penv auth (Test2.loginWithSavedCookies auth s).2).1 = true) ∨
        (Event.loginWithCredentials ∈ ev ∧
          (Test2.loginWithCredentials auth (Test2.loginWithManualCookies penv auth
            (Test2.loginWithSavedCookies auth s).2).2).1 = true)) ∧
      ((Test2.loginWithSavedCookies auth s).1 = false →
        (Test2.loginWithManualCookies penv auth (Test2.loginWithSavedCookies auth s).2).1 = true →
        Event.loginWithCredentials ∉ ev) := by
  obtain ⟨ev, htrace, _, _, hcases⟩ := Test2.login_cases penv auth s
  have hmem : ∀ e, Spec.isStrategy e = true → (e ∈ ev ↔ e ∈ ev.filter Spec.isStrategy) := by
    intro e he
    simp [List.mem_filter, he]
  have hman := hmem .loginWithManualCookies rfl
  have hcred := hmem .loginWithCredentials rfl
  refine ⟨ev, htrace, ?_⟩
  rcases hcases with ⟨hf, h1, hl⟩ | ⟨hf, h1, h2, hl⟩ | ⟨hf, h1, h2, hl⟩
  · rw [hf] at hman hcred
    simp only [hman, hcred, hf, h1, hl]
    simp
  · rw [hf] at hman hcred
    simp only [hman, hcred, hf, h1, h2, hl]
    simp
  · rw [hf] at hman hcred
    simp only [hman, hcred, hf, h1, h2, hl]
    simp

/-! ## Lemmas on `run` -/

theorem Legacy.login_effects (v : Legacy) (penv : ProcessEnv) (auth : AuthEnv) (s : State) :
    ∃ ev, (v.login penv auth s).2.trace = s.trace ++ ev ∧
      (∀ e ∈ ev, e ∈ Spec.loginEvents) ∧
      ((v.login penv auth s).2.fs = s.fs ∨
        (v.login penv auth s).2.fs = s.fs.unlinkSync cookieFile) := by
  cases v with
  | test =>
    simp only [Legacy.login, Test.login]
    cases auth.clientLogin <;>
      exact ⟨[.clientLogin], by simp [State.log, Spec.loginEvents]⟩
  | test2 =>
    obtain ⟨ev, h1, h2, h3, _⟩ := Test2.login_cases penv auth s
    exact ⟨ev, h1, h2, h3⟩

theorem Legacy.run_of_login_false (v : Legacy) (penv : ProcessEnv) (auth : AuthEnv)
    (envs : Nat → Env) (specificMonth : Option String) (force : Bool) (s : State)
    (h : (v.login penv auth s).1 = false) :
    v.run penv auth envs specificMonth force s = (.ok (), (v.login penv auth s).2) := by
  cases v with
  | test =>
    simp only [Legacy.login] at h ⊢
    simp only [Legacy.run, Test.run]
    rcases hl : Test.login auth s with ⟨b, s1⟩
    rw [hl] at h
    cases h
    rfl
  | test2 =>
    simp only [Legacy.login] at h ⊢
    simp only [Legacy.run, Test2.run]
    rcases hl : Test2.login penv auth s with ⟨b, s1⟩
    rw [hl] at h
    cases h
    rfl

/-- Claim C10: In every state and for every `specificMonth` and `force`, if
`login` returns `false` then `run` (in either file) returns at once with the
state `login` left: its only effects are those of the login attempts (entering
a strategy, probing or opening a session, deleting the cookie file), so the
base directory is not listed, `processMonth` and `postToInstagram` are not
called, nothing is written, no delay is taken, and no file exists afterwards
that did not exist before. -/
theorem run_aborts_when_login_fails (v : Legacy) (penv : ProcessEnv) (auth : AuthEnv)
    (envs : Nat → Env) (specificMonth : Option String) (force : Bool) (s : State)
    (hlogin : (v.login penv auth s).1 = false) :
    v.run penv auth envs specificMonth force s = (.ok (), (v.login penv auth s).2) ∧
    (∃ ev, (v.run penv auth envs specificMonth force s).2.trace = s.trace ++ ev ∧
      ∀ e ∈ ev, e = .loginWithSavedCookies ∨ e = .loginWithManualCookies ∨
        e = .loginWithCredentials ∨ e = .getProfile ∨ e = .clientLogin ∨
        e = .unlink cookieFile) ∧
    (∀ p, (v.run penv auth envs specificMonth force s).2.fs.existsSync p = true →
      s.fs.existsSync p = true) := by
  have hrun := Legacy.run_of_login_false v penv auth envs specificMonth force s hlogin
  obtain ⟨ev, htrace, hev, hfs⟩ := Legacy.login_effects v penv auth s
  refine ⟨hrun, ⟨ev, by rw [hrun]; exact htrace, ?_⟩, ?_⟩
  · intro e he
    simpa [Spec.loginEvents] using hev e he
  · intro p hp
    rw [hrun] at hp
    rcases hfs with h | h
    · rw [← h]; exact hp
    · simp only [h] at hp
      simp only [FS.unlinkSync, Bool.and_eq_true] at hp
      exact hp.2

/-- On the sample filesystem with every login strategy failing, `run` of
`old/test2.js` ends after the three attempts and `run` of `old/test.js` after
the one. -/
theorem run_aborts_when_login_fails_witness :
    (Legacy.test2.login Sample.penv Sample.authFails ⟨Sample.fs, false, []⟩).1 = false ∧
    (Legacy.test2.run Sample.penv Sample.authFails (fun _ => Sample.env) none false
      ⟨Sample.fs, false, []⟩).2.trace =
      [.loginWithSavedCookies, .loginWithManualCookies, .loginWithCredentials, .clientLogin] ∧
    (Legacy.test.run Sample.penv Sample.authFails (fun _ => Sample.env) none true
      ⟨Sample.fs, false, []⟩).2.trace = [.clientLogin] :=
  ⟨rfl,
   (congrArg (fun r => r.2.trace) (run_aborts_when_login_fails .test2 Sample.penv
     Sample.authFails (fun _ => Sample.env) none false ⟨Sample.fs, false, []⟩ rfl).1).trans
     (by decide),
   (congrArg (fun r => r.2.trace) (run_aborts_when_login_fails .test Sample.penv
     Sample.authFails (fun _ => Sample.env) none true ⟨Sample.fs, false, []⟩ rfl).1).trans
     (by decide)⟩

/-! ## The claims at sample inputs -/

/-- C9 when no cookie file is saved and the manual cookies validate: `login`
returns `true` and `loginWithCredentials` is not among its events. -/
theorem login_tries_strategies_in_order_witness :
    (Test2.login Sample.penvCookies Sample.authManual ⟨Sample.fs, false, []⟩).1 = true ∧
    Event.loginWithCredentials ∉
      (Test2.login Sample.penvCookies Sample.authManual ⟨Sample.fs, false, []⟩).2.trace := by
  obtain ⟨ev, hev, _, _, _, _, hno⟩ :=
    login_tries_strategies_in_order Sample.penvCookies Sample.authManual ⟨Sample.fs, false, []⟩
  refine ⟨by decide, ?_⟩
  rw [hev]
  simpa using hno (by decide) (by decide)

/-- What holds of C8 in `processMonth`: with content present and the client
built, a request that rejects or a response without content does not stop the
call, and `postToInstagram` is called with the caption `readTextFiles`
assembled. -/
theorem Test2.processMonth_publishes_raw_caption (env : Env) (m : String) (force : Bool)
    (s : State) (entries : List Dirent)
    (hnew : s.fs.existsSync (Test2.statusFile m) = false ∨ force = true)
    (hdir : s.fs.readdirSync m = some entries)
    (htxt : Test2.txtFilesIn m entries ≠ []) (himg : Test2.imageFilesIn m entries ≠ [])
    (hclient : env.openaiClient = true)
    (hfail : env.createChatCompletion (Test2.enhancePrompt
        (Test2.readTextFiles (Test2.txtFilesIn m entries) s).1) = .rejects ∨
      env.createChatCompletion (Test2.enhancePrompt
        (Test2.readTextFiles (Test2.txtFilesIn m entries) s).1) = .malformed) :
    (Test2.processMonth env m force s).1 = .ok () ∧
    ∃ img success, Event.postToInstagram img
      (Test2.readTextFiles (Test2.txtFilesIn m entries) s).1 success ∈
        (Test2.processMonth env m force s).2.trace := by
  have hraw := Test2.enhanceTextWithGPT_falls_back env
    (Test2.readTextFiles (Test2.txtFilesIn m entries) s).1 s hclient hfail
  rcases Test2.processMonth_cases env m force s with
    ⟨hex, hf, _⟩ | ⟨_, hnone, _⟩ | ⟨entries', _, hsome, ⟨hnil, _⟩ | ⟨_, _, ⟨hno, _⟩ |
      ⟨_, caption, hcap, ⟨evs, h, _⟩ | ⟨photo, _, _, _, h⟩⟩⟩⟩
  · rcases hnew with h | h
    · rw [h] at hex; cases hex
    · rw [h] at hf; cases hf
  · rw [hdir] at hnone; cases hnone
  · rw [hdir] at hsome; cases hsome
    rcases hnil with h | h
    · exact absurd h htxt
    · exact absurd h himg
  · rw [hclient] at hno; cases hno
  · rw [hdir] at hsome; cases hsome
    have hc : caption = (Test2.readTextFiles (Test2.txtFilesIn m entries) s).1 := by
      have := hcap s
      rw [hraw] at this
      exact (Except.ok.inj this).symm
    subst hc
    rw [h]
    exact ⟨rfl, (Test2.imageFilesIn m entries).getD
      (env.random % (Test2.imageFilesIn m entries).length) "", false, by simp⟩
  · rw [hdir] at hsome; cases hsome
    have hc : caption = (Test2.readTextFiles (Test2.txtFilesIn m entries) s).1 := by
      have := hcap s
      rw [hraw] at this
      exact (Except.ok.inj this).symm
    subst hc
    rw [h]
    exact ⟨rfl, (Test2.imageFilesIn m entries).getD
      (env.random % (Test2.imageFilesIn m entries).length) "", true, by simp⟩

theorem JS.lexLE_total : ∀ a b : List Nat, JS.lexLE a b = true ∨ JS.lexLE b a = true
  | [], _ => Or.inl (by simp [JS.lexLE])
  | _ :: _, [] => Or.inr (by simp [JS.lexLE])
  | x :: xs, y :: ys => by
    rcases Nat.lt_trichotomy x y with h | h | h
    · exact Or.inl (by simp [JS.lexLE, h])
    · subst h
      rcases JS.lexLE_total xs ys with h | h
      · exact Or.inl (by simp [JS.lexLE, h])
      · exact Or.inr (by simp [JS.lexLE, h])
    · exact Or.inr (by simp [JS.lexLE, h])

theorem JS.lexLE_trans : ∀ a b c : List Nat,
    JS.lexLE a b = true → JS.lexLE b c = true → JS.lexLE a c = true
  | [], _, _, _, _ => by simp [JS.lexLE]
  | _ :: _, [], _, h, _ => by simp [JS.lexLE] at h
  | _ :: _, _ :: _, [], _, h => by simp [JS.lexLE] at h
  | x :: xs, y :: ys, z :: zs, h1, h2 => by
    simp only [JS.lexLE, Bool.or_eq_true, decide_eq_true_eq, Bool.and_eq_true, beq_iff_eq] at *
    rcases h1 with h1 | ⟨rfl, h1⟩
    · rcases h2 with h2 | ⟨rfl, _⟩
      · exact Or.inl (Nat.lt_trans h1 h2)
      · exact Or.inl h1
    · rcases h2 with h2 | ⟨rfl, h2⟩
      · exact Or.inl h2
      · exact Or.inr ⟨rfl, JS.lexLE_trans xs ys zs h1 h2⟩

/-- The array `sort()` returns is in code-unit order. -/
theorem JS.sort_sorted (l : List String) : (JS.sort l).Sorted JS.sortCompareLE :=
  @List.sorted_insertionSort _ JS.sortCompareLE _ ⟨fun _ _ => JS.lexLE_total _ _⟩
    ⟨fun _ _ _ h1 h2 => JS.lexLE_trans _ _ _ h1 h2⟩ l

/-- What `getMonthFolders` does order by: the paths it returns are sorted as
strings, by UTF-16 code units. -/
theorem Legacy.getMonthFolders_sorted (v : Legacy) (penv : ProcessEnv) (s : State)
    (folders : List String) (h : (v.getMonthFolders penv s).1 = .ok folders) :
    folders.Sorted JS.sortCompareLE := by
  rw [Legacy.getMonthFolders_eq] at h
  unfold Test2.getMonthFolders at h
  cases hrd : s.fs.readdirSync (baseDir penv) with
  | none => rw [hrd] at h; cases h
  | some entries =>
    rw [hrd] at h
    cases h
    exact JS.sort_sorted _

/-! ## Lemmas on `postToInstagram` -/

theorem Test.postToInstagram_eq_test2 : Test.postToInstagram = Test2.postToInstagram := rfl

theorem Legacy.postToInstagram_eq (v : Legacy) : v.postToInstagram = Test2.postToInstagram := by
  cases v <;> rfl

/-- Claim C11 as stated fails: Called on an object that is not logged in,
`postToInstagram` of both files returns `false`; it does not end with
`NotAuthenticatedError`. -/
theorem postToInstagram_returns_false_when_logged_out :
    Spec.outcomeOf (Test2.postToInstagram Sample.env "content/1/x.jpg" "Hello"
      Sample.stateLoggedOut) = .returned false ∧
    Spec.outcomeOf (Test.postToInstagram Sample.env "content/1/x.jpg" "Hello"
      Sample.stateLoggedOut) = .returned false ∧
    Spec.PublishOutcome.returned false ≠ .notAuthenticatedError :=
  ⟨rfl, rfl, by decide⟩

/-- Claim C11, amended: For every image path and caption, when `isLoggedIn` is
false `postToInstagram` (in either file) returns `false` at once: its only
effect is that return, so the image file is not read and `uploadPhoto` is not
invoked, and the filesystem and the login flag stay as they were. -/
theorem postToInstagram_fails_fast (v : Legacy) (env : Env) (imagePath caption : String)
    (s : State) (hout : s.isLoggedIn = false) :
    v.postToInstagram env imagePath caption s =
      (false, { s with trace := s.trace ++ [.postToInstagram imagePath caption false] }) := by
  rw [Legacy.postToInstagram_eq]
  simp [Test2.postToInstagram, hout, State.log]

/-- The amended C11 on the sample filesystem: no read of the image and no
upload among the events. -/
theorem postToInstagram_fails_fast_witness :
    Sample.stateLoggedOut.isLoggedIn = false ∧
    (Legacy.test.postToInstagram Sample.env "content/1/x.jpg" "Hello"
      Sample.stateLoggedOut).1 = false ∧
    (Legacy.test.postToInstagram Sample.env "content/1/x.jpg" "Hello"
      Sample.stateLoggedOut).2.trace = [.postToInstagram "content/1/x.jpg" "Hello" false] :=
  ⟨rfl,
   congrArg Prod.fst (postToInstagram_fails_fast .test Sample.env "content/1/x.jpg" "Hello"
     Sample.stateLoggedOut rfl),
   congrArg (fun r => r.2.trace) (postToInstagram_fails_fast .test Sample.env
     "content/1/x.jpg" "Hello" Sample.stateLoggedOut rfl)⟩

/-! ## Lemmas on the batch loop -/

